import Mathlib

/-!
Verification of the dilution-series inference helper (src/helper.py).

Modelling conventions for the shallow embedding:

* Python floats are modelled as rationals (`ℚ`); every identity proved here is
  an identity of exact field arithmetic, which is what the float code computes
  up to rounding.
* `numpy.exp` is an abstract function parameter `expf : ℚ → ℚ`; no claim
  depends on analytic properties of the exponential beyond `expf 0 = 1`, which
  is taken as a hypothesis where needed.
* one-dimensional numpy arrays are modelled as `List ℚ`; the `(M, 1)` column
  shape produced by `x[..., None]` is modelled by giving the calibration model
  a separate column-shaped batched capability (see `CalibrationModel`), since
  the column shape is exactly what an implementation may fail to support.
* Python exceptions are modelled with `Except String`; a `try/except` is a
  `match` on the attempted computation.
* `calibr8.CalibrationModel.loglikelihood` and `calibr8.infer_independent` are
  external collaborators (the `calibr8` library is not part of this
  repository); they enter the embedding as opaque function parameters and
  structure fields.
-/

/-- A numpy value at the `likelihood_wrapper` boundary: either a scalar or a
one-dimensional array (Python duck typing forces the distinction to be a sum
type here). -/
inductive XVal where
  | scalar : ℚ → XVal
  | arr : List ℚ → XVal

/-- The external calibration model, reduced to the capabilities the helper
uses: scalar log-likelihood evaluation, row-shaped batched evaluation
(an `(N,)` array of candidates against one scalar observation), and
column-shaped batched evaluation (the `(M, 1)` array produced by
`x[..., None]` against one scalar observation).  Each capability may raise,
modelled by `Except String`; in particular a model that does not support the
column broadcast shape has a `loglikelihoodCol` that returns an error. -/
structure CalibrationModel where
  loglikelihood : ℚ → ℚ → Except String ℚ
  loglikelihoodRow : List ℚ → ℚ → Except String (List ℚ)
  loglikelihoodCol : List ℚ → ℚ → Except String (List ℚ)

/-- Left-to-right effectful map over a list, propagating the first raised
exception: the semantics of a Python list comprehension whose body may
raise. -/
def exceptMap {α β : Type} (f : α → Except String β) : List α → Except String (List β)
  | [] => Except.ok []
  | a :: as => do
    let b ← f a
    let bs ← exceptMap f as
    return b :: bs

/-- `numpy.sum(LLs, axis=0)` for a list of equal-length `M`-vectors: the
elementwise sum.  For the empty list numpy returns the scalar `0.0`, whose
broadcast meaning is the zero vector used as the base case here. -/
def sumAxis0 (M : ℕ) (LLs : List (List ℚ)) : List ℚ :=
  LLs.foldr (fun v acc => List.zipWith (fun a b => a + b) v acc) (List.replicate M 0)

/-- Embedding of `likelihood_dilution` (src/helper.py lines 42-44) for a scalar
candidate `x` and a calibration model given by a total scalar log-likelihood
function `m`: `LLs = [m(x / d_i, y_i) for (d_i, y_i) in zip(d, y)]`, then
`exp(sum(LLs, axis=0))`.  Like Python's `zip`, `List.zip` truncates to the
shorter of `d` and `y`. -/
def likelihood_dilution (expf : ℚ → ℚ) (m : ℚ → ℚ → ℚ) (x : ℚ) (y d : List ℚ) : ℚ :=
  expf (((d.zip y).map (fun p => m (x / p.1) p.2)).sum)

/-- Embedding of `likelihood_dilution` for a scalar candidate and a fallible
model: each `model.loglikelihood(x / d_i, y_i)` may raise, and the first
exception propagates out of the list comprehension. -/
def likelihood_dilutionE (expf : ℚ → ℚ) (model : CalibrationModel) (x : ℚ)
    (y d : List ℚ) : Except String ℚ := do
  let LLs ← exceptMap (fun p => model.loglikelihood (x / p.1) p.2) (d.zip y)
  return expf LLs.sum

/-- Embedding of `likelihood_dilution` at a column-shaped array candidate:
the call `likelihood_dilution(x[..., None], y, d, model)` on line 51.  The
division `x[..., None] / d_i` is elementwise, each model call receives the
column batch and one scalar observation, `numpy.sum(..., axis=0)` adds the
per-pair vectors elementwise, and `numpy.exp` maps over the result. -/
def likelihood_dilutionCol (expf : ℚ → ℚ) (model : CalibrationModel) (xs : List ℚ)
    (y d : List ℚ) : Except String (List ℚ) := do
  let LLs ← exceptMap (fun p => model.loglikelihoodCol (xs.map (fun v => v / p.1)) p.2) (d.zip y)
  return (sumAxis0 xs.length LLs).map expf

/-- Embedding of `likelihood_dilution` at a row-shaped array candidate: the
pointwise-mode call `likelihood_dilution(x, y, d, model)` on line 57 when `x`
is an array index-aligned with `y`. -/
def likelihood_dilutionRow (expf : ℚ → ℚ) (model : CalibrationModel) (xs : List ℚ)
    (y d : List ℚ) : Except String (List ℚ) := do
  let LLs ← exceptMap (fun p => model.loglikelihoodRow (xs.map (fun v => v / p.1)) p.2) (d.zip y)
  return (sumAxis0 xs.length LLs).map expf

/-- The Composer applied to a duck-typed candidate, as the pointwise branch of
the wrapper calls it: scalar candidates take the scalar path, array candidates
the row-shaped path. -/
def likelihood_dilutionX (expf : ℚ → ℚ) (model : CalibrationModel) (x : XVal)
    (y d : List ℚ) : Except String XVal :=
  match x with
  | XVal.scalar q => Except.map XVal.scalar (likelihood_dilutionE expf model q y d)
  | XVal.arr xs => Except.map XVal.arr (likelihood_dilutionRow expf model xs y d)

/-- A calibration model that fully supports broadcasting, induced by a total
scalar kernel `m`: every batched call is the elementwise lift of `m`. -/
def broadcastModel (m : ℚ → ℚ → ℚ) : CalibrationModel :=
  ⟨fun a b => Except.ok (m a b),
   fun v b => Except.ok (v.map (fun a => m a b)),
   fun v b => Except.ok (v.map (fun a => m a b))⟩

/-- Embedding of `likelihood_wrapper` (src/helper.py lines 46-57).  In scan
mode the column-shaped vectorized attempt is tried first; any exception from
it selects the per-candidate fallback loop (whose own exceptions propagate,
since the loop body is outside the `try`).  A scalar candidate in scan mode is
a `TypeError` (a float is neither subscriptable nor iterable).  In pointwise
mode the Composer is called once, directly, with no exception handling. -/
def likelihood_wrapper (expf : ℚ → ℚ) (model : CalibrationModel) (d y : List ℚ)
    (x : XVal) (scan_x : Bool) : Except String XVal :=
  if scan_x then
    match x with
    | XVal.scalar _ => Except.error "TypeError"
    | XVal.arr xs =>
      match likelihood_dilutionCol expf model xs y d with
      | Except.ok r => Except.ok (XVal.arr r)
      | Except.error _ =>
        Except.map XVal.arr (exceptMap (fun xi => likelihood_dilutionE expf model xi y d) xs)
  else
    likelihood_dilutionX expf model x y d

/-- The keyword arguments `infer_independent` hands to the external posterior
routine `calibr8.infer_independent` (src/helper.py lines 59-66). -/
structure PosteriorArgs where
  likelihood : XVal → Bool → Except String XVal
  y : List ℚ
  lower : ℚ
  upper : ℚ
  steps : ℕ
  ci_prob : ℚ

/-- Embedding of the top-level `infer_independent` (src/helper.py lines 5-67):
it builds the wrapper closure bound to the fixed `(d, y, model)` triple, hands
it with the caller's `y`, `lower`, `upper`, `steps`, `ci_prob` to the external
posterior routine `calibr8_infer`, and returns that routine's result. -/
def infer_independent {R : Type} (calibr8_infer : PosteriorArgs → R) (expf : ℚ → ℚ)
    (model : CalibrationModel) (d y : List ℚ) (lower upper : ℚ) (steps : ℕ)
    (ci_prob : ℚ) : R :=
  calibr8_infer ⟨fun x scan_x => likelihood_wrapper expf model d y x scan_x,
    y, lower, upper, steps, ci_prob⟩

theorem exceptMap_ok {α β : Type} (f : α → β) (l : List α) :
    exceptMap (fun a => (Except.ok (f a) : Except String β)) l = Except.ok (l.map f) := by
  induction l with
  | nil => rfl
  | cons a as ih => simp only [exceptMap, ih]; rfl

theorem zip_map_sum (f : ℚ × ℚ → ℚ) (d y : List ℚ) :
    ((d.zip y).map f).sum
      = ∑ i ∈ Finset.range (min d.length y.length), f (d.getD i 0, y.getD i 0) := by
  induction d generalizing y with
  | nil => simp
  | cons a as ih =>
    cases y with
    | nil => simp
    | cons b bs =>
      simp [List.zip_cons_cons, ih bs, Finset.sum_range_succ', Nat.succ_min_succ, add_comm]

theorem zipWith_add_map (f g : ℚ → ℚ) (l : List ℚ) :
    List.zipWith (fun a b => a + b) (l.map f) (l.map g) = l.map (fun a => f a + g a) := by
  induction l with
  | nil => rfl
  | cons a as ih => simp [ih]

theorem sumAxis0_map_map (g : ℚ × ℚ → ℚ → ℚ) (l : List (ℚ × ℚ)) (xs : List ℚ) :
    sumAxis0 xs.length (l.map (fun p => xs.map (fun xi => g p xi)))
      = xs.map (fun xi => (l.map (fun p => g p xi)).sum) := by
  induction l with
  | nil => simp [sumAxis0, List.map_const']
  | cons p l ih =>
    calc sumAxis0 xs.length ((p :: l).map (fun q => xs.map (fun xi => g q xi)))
        = List.zipWith (fun a b => a + b) (xs.map (fun xi => g p xi))
            (sumAxis0 xs.length (l.map (fun q => xs.map (fun xi => g q xi)))) := rfl
      _ = List.zipWith (fun a b => a + b) (xs.map (fun xi => g p xi))
            (xs.map (fun xi => (l.map (fun q => g q xi)).sum)) := by rw [ih]
      _ = xs.map (fun xi => ((p :: l).map (fun q => g q xi)).sum) := by
            rw [zipWith_add_map]; simp

theorem likelihood_dilutionE_of_ok (expf : ℚ → ℚ) (model : CalibrationModel)
    (m : ℚ → ℚ → ℚ) (hm : model.loglikelihood = fun a b => Except.ok (m a b))
    (x : ℚ) (y d : List ℚ) :
    likelihood_dilutionE expf model x y d
      = Except.ok (likelihood_dilution expf m x y d) := by
  simp [likelihood_dilutionE, likelihood_dilution, hm, exceptMap_ok]

theorem likelihood_dilutionCol_broadcast (expf : ℚ → ℚ) (m : ℚ → ℚ → ℚ)
    (xs y d : List ℚ) :
    likelihood_dilutionCol expf (broadcastModel m) xs y d
      = Except.ok (xs.map (fun xi => likelihood_dilution expf m xi y d)) := by
  have h := sumAxis0_map_map (fun p xi => m (xi / p.1) p.2) (d.zip y) xs
  simp [likelihood_dilutionCol, broadcastModel, exceptMap_ok, likelihood_dilution,
    List.map_map, Function.comp_def] at h ⊢
  rw [h]
  simp [List.map_map, Function.comp_def]

/-- A calibration model whose scalar evaluation is total but whose
column-shaped batched evaluation is unsupported: every vectorized attempt
raises. -/
def noBroadcastModel : CalibrationModel :=
  ⟨fun a b => Except.ok (a + b),
   fun v b => Except.ok (v.map (fun a => a + b)),
   fun _ _ => Except.error "operands could not be broadcast"⟩

/-- A calibration model whose every evaluation raises. -/
def errorModel : CalibrationModel :=
  ⟨fun _ _ => Except.error "domain error",
   fun _ _ => Except.error "domain error",
   fun _ _ => Except.error "domain error"⟩

/-- Claim C1: for every candidate value (scalar, and arrays via the
broadcasting lift of the same scalar kernel), every calibration model, and
index-aligned `d`, `y` of equal length `N ≥ 1`, the composed joint likelihood
is the exponential of the elementwise sum over `i` of
`loglikelihood(x / d_i, y_i)` — a likelihood, not a log-likelihood. -/
theorem likelihood_dilution_is_exp_sum (expf : ℚ → ℚ) (m : ℚ → ℚ → ℚ) (x : ℚ)
    (xs d y : List ℚ) (hlen : d.length = y.length) (hN : 1 ≤ y.length) :
    likelihood_dilution expf m x y d
        = expf (∑ i ∈ Finset.range y.length, m (x / d.getD i 0) (y.getD i 0))
      ∧ likelihood_dilutionCol expf (broadcastModel m) xs y d
        = Except.ok (xs.map (fun xi =>
            expf (∑ i ∈ Finset.range y.length, m (xi / d.getD i 0) (y.getD i 0)))) := by
  have key : ∀ z : ℚ, likelihood_dilution expf m z y d
      = expf (∑ i ∈ Finset.range y.length, m (z / d.getD i 0) (y.getD i 0)) := by
    intro z
    have h := zip_map_sum (fun p => m (z / p.1) p.2) d y
    simp only [hlen, min_self] at h
    simpa [likelihood_dilution] using congrArg expf h
  refine ⟨key x, ?_⟩
  rw [likelihood_dilutionCol_broadcast]
  simp only [key]

theorem likelihood_dilution_is_exp_sum_witness :
    ([(2 : ℚ)]).length = ([(3 : ℚ)]).length
      ∧ 1 ≤ ([(3 : ℚ)]).length
      ∧ (likelihood_dilution id (fun a b => a + b) 8 [3] [2]
            = id (∑ i ∈ Finset.range ([(3 : ℚ)]).length,
                (8 / ([(2 : ℚ)]).getD i 0 + ([(3 : ℚ)]).getD i 0))
          ∧ likelihood_dilutionCol id (broadcastModel (fun a b => a + b)) [4] [3] [2]
            = Except.ok (([(4 : ℚ)]).map (fun xi =>
                id (∑ i ∈ Finset.range ([(3 : ℚ)]).length,
                  (xi / ([(2 : ℚ)]).getD i 0 + ([(3 : ℚ)]).getD i 0))))) :=
  ⟨rfl, Nat.le_refl 1,
   likelihood_dilution_is_exp_sum id (fun a b => a + b) 8 [4] [2] [3] rfl (Nat.le_refl 1)⟩

/-- Claim C2: in scan mode, for a model whose scalar evaluation agrees with a
total kernel `m` but whose vectorized column attempt raises, the wrapper's
fallback loop returns exactly what the wrapper returns for a
broadcasting-capable model with the same kernel on the same `(d, y)` and
candidates: the two scan paths are observationally indistinguishable. -/
theorem likelihood_wrapper_fallback_equiv (expf : ℚ → ℚ) (m : ℚ → ℚ → ℚ)
    (model : CalibrationModel) (d y xs : List ℚ) (e : String)
    (hm : model.loglikelihood = fun a b => Except.ok (m a b))
    (hfail : likelihood_dilutionCol expf model xs y d = Except.error e) :
    likelihood_wrapper expf model d y (XVal.arr xs) true
      = likelihood_wrapper expf (broadcastModel m) d y (XVal.arr xs) true := by
  simp [likelihood_wrapper, hfail, likelihood_dilutionCol_broadcast,
    likelihood_dilutionE_of_ok expf model m hm, exceptMap_ok, Except.map]

theorem likelihood_wrapper_fallback_equiv_witness :
    (noBroadcastModel.loglikelihood = fun a b => Except.ok (a + b))
      ∧ likelihood_dilutionCol id noBroadcastModel [6, 8] [3] [2]
          = Except.error "operands could not be broadcast"
      ∧ likelihood_wrapper id noBroadcastModel [2] [3] (XVal.arr [6, 8]) true
          = likelihood_wrapper id (broadcastModel (fun a b => a + b)) [2] [3]
              (XVal.arr [6, 8]) true :=
  ⟨rfl, rfl,
   likelihood_wrapper_fallback_equiv id (fun a b => a + b) noBroadcastModel [2] [3] [6, 8]
     "operands could not be broadcast" rfl rfl⟩

/-- Claim C3: in scan mode, when the vectorized broadcast attempt raises, the
wrapper does not propagate that exception: it returns the result of the
per-candidate fallback loop. -/
theorem likelihood_wrapper_scan_fallback (expf : ℚ → ℚ) (model : CalibrationModel)
    (d y xs : List ℚ) (e : String)
    (hfail : likelihood_dilutionCol expf model xs y d = Except.error e) :
    likelihood_wrapper expf model d y (XVal.arr xs) true
      = Except.map XVal.arr
          (exceptMap (fun xi => likelihood_dilutionE expf model xi y d) xs) := by
  simp [likelihood_wrapper, hfail]

theorem likelihood_wrapper_scan_fallback_witness :
    likelihood_dilutionCol id noBroadcastModel [6, 8] [3] [2]
        = Except.error "operands could not be broadcast"
      ∧ likelihood_wrapper id noBroadcastModel [2] [3] (XVal.arr [6, 8]) true
          = Except.map XVal.arr
              (exceptMap (fun xi => likelihood_dilutionE id noBroadcastModel xi [3] [2]) [6, 8]) :=
  ⟨rfl,
   likelihood_wrapper_scan_fallback id noBroadcastModel [2] [3] [6, 8]
     "operands could not be broadcast" rfl⟩

/-- Claim C4: with a single dilution/observation pair the composed likelihood
equals `exp (loglikelihood (x / d_0, y_0))` exactly, with no special-casing;
with `d = [1]` the candidate is passed to the model unadjusted. -/
theorem likelihood_dilution_single_pair (expf : ℚ → ℚ) (m : ℚ → ℚ → ℚ) (x d0 y0 : ℚ) :
    likelihood_dilution expf m x [y0] [d0] = expf (m (x / d0) y0)
      ∧ likelihood_dilution expf m x [y0] [1] = expf (m x y0) := by
  constructor <;> simp [likelihood_dilution]

/-- Claim C5: permuting the `(d_i, y_i)` pairs jointly (the same permutation
applied to `d` and `y`) leaves the composed joint likelihood unchanged at
every candidate. -/
theorem likelihood_dilution_perm_invariant (expf : ℚ → ℚ) (m : ℚ → ℚ → ℚ) (x : ℚ)
    (d y dp yp : List ℚ) (hperm : (d.zip y).Perm (dp.zip yp)) :
    likelihood_dilution expf m x yp dp = likelihood_dilution expf m x y d := by
  unfold likelihood_dilution
  exact congrArg expf ((hperm.map (fun p => m (x / p.1) p.2)).sum_eq).symm

theorem likelihood_dilution_perm_invariant_witness :
    (([(1 : ℚ), 2]).zip ([(3 : ℚ), 4])).Perm (([(2 : ℚ), 1]).zip ([(4 : ℚ), 3]))
      ∧ likelihood_dilution id (fun a b => a + b) 6 [4, 3] [2, 1]
          = likelihood_dilution id (fun a b => a + b) 6 [3, 4] [1, 2] :=
  ⟨List.Perm.swap ((2 : ℚ), (4 : ℚ)) ((1 : ℚ), (3 : ℚ)) [],
   likelihood_dilution_perm_invariant id (fun a b => a + b) 6 [1, 2] [3, 4] [2, 1] [4, 3]
     (List.Perm.swap ((2 : ℚ), (4 : ℚ)) ((1 : ℚ), (3 : ℚ)) [])⟩

/-- Claim C6: in pointwise mode the wrapper is exactly one direct Composer
call, with no fallback branching and no exception handling: it returns the
Composer's value, and any error the Composer raises is propagated unchanged. -/
theorem likelihood_wrapper_pointwise_direct (expf : ℚ → ℚ) (model : CalibrationModel)
    (d y : List ℚ) (x : XVal) :
    likelihood_wrapper expf model d y x false = likelihood_dilutionX expf model x y d
      ∧ ∀ e : String, likelihood_dilutionX expf model x y d = Except.error e →
          likelihood_wrapper expf model d y x false = Except.error e := by
  refine ⟨rfl, fun e he => ?_⟩
  simpa [likelihood_wrapper] using he

theorem likelihood_wrapper_pointwise_direct_witness :
    likelihood_dilutionX id errorModel (XVal.scalar 1) [2] [3] = Except.error "domain error"
      ∧ likelihood_wrapper id errorModel [3] [2] (XVal.scalar 1) false
          = Except.error "domain error" :=
  ⟨rfl,
   (likelihood_wrapper_pointwise_direct id errorModel [3] [2] (XVal.scalar 1)).2
     "domain error" rfl⟩

/-- Claim C7: the top-level operation hands the composed likelihood closure
together with the caller's `y`, `lower`, `upper`, `steps`, `ci_prob` unchanged
to the external posterior routine and returns that routine's result object
unchanged. -/
theorem infer_independent_delegates {R : Type} (calibr8_infer : PosteriorArgs → R)
    (expf : ℚ → ℚ) (model : CalibrationModel) (d y : List ℚ) (lower upper : ℚ)
    (steps : ℕ) (ci_prob : ℚ) :
    infer_independent calibr8_infer expf model d y lower upper steps ci_prob
      = calibr8_infer ⟨fun x scan_x => likelihood_wrapper expf model d y x scan_x,
          y, lower, upper, steps, ci_prob⟩ := rfl

/-- Claim C8: for `d = [1, 2]`, `y = [5, 5]` and the kernel
`loglikelihood(x, y) = -(y - x)^2`, the composed likelihood at candidate
`x = 10` is `exp (-25)`: the joint log-likelihood is
`-(5 - 10/1)^2 + -(5 - 10/2)^2 = -25 + 0`. -/
theorem likelihood_dilution_scenario (expf : ℚ → ℚ) :
    likelihood_dilution expf (fun a b => -(b - a) ^ 2) 10 [5, 5] [1, 2] = expf (-25) := by
  norm_num [likelihood_dilution]

/-- Claim C9: with mismatched lengths of `d` and `y` the Composer raises no
error: like Python's `zip`, it silently evaluates only the first
`min (length d) (length y)` index-aligned pairs and ignores the excess. -/
theorem likelihood_dilutionE_mismatched_lengths (expf : ℚ → ℚ)
    (model : CalibrationModel) (m : ℚ → ℚ → ℚ) (x : ℚ) (d y : List ℚ)
    (hm : model.loglikelihood = fun a b => Except.ok (m a b))
    (hne : d.length ≠ y.length) :
    likelihood_dilutionE expf model x y d
      = Except.ok (expf (∑ i ∈ Finset.range (min d.length y.length),
          m (x / d.getD i 0) (y.getD i 0))) := by
  rw [likelihood_dilutionE_of_ok expf model m hm]
  have h := zip_map_sum (fun p => m (x / p.1) p.2) d y
  simpa [likelihood_dilution] using congrArg (fun v => (Except.ok (expf v) : Except String ℚ)) h

theorem likelihood_dilutionE_mismatched_lengths_witness :
    ((broadcastModel (fun a b => a + b)).loglikelihood = fun a b => Except.ok (a + b))
      ∧ ([(2 : ℚ), 3, 5]).length ≠ ([(7 : ℚ), 11]).length
      ∧ likelihood_dilutionE id (broadcastModel (fun a b => a + b)) 6 [7, 11] [2, 3, 5]
          = Except.ok (id (∑ i ∈ Finset.range
                (min ([(2 : ℚ), 3, 5]).length ([(7 : ℚ), 11]).length),
              (6 / ([(2 : ℚ), 3, 5]).getD i 0 + ([(7 : ℚ), 11]).getD i 0))) :=
  ⟨rfl, by decide,
   likelihood_dilutionE_mismatched_lengths id (broadcastModel (fun a b => a + b))
     (fun a b => a + b) 6 [2, 3, 5] [7, 11] rfl (by decide)⟩

/-- Claim C10: with `d` and `y` both empty the Composer raises no error — even
a model whose every evaluation raises is never called — and returns the
constant likelihood `exp 0 = 1` for every candidate. -/
theorem likelihood_dilutionE_empty (expf : ℚ → ℚ) (model : CalibrationModel) (x : ℚ)
    (hexp : expf 0 = 1) :
    likelihood_dilutionE expf model x [] [] = Except.ok 1 := by
  simp [likelihood_dilutionE, exceptMap, hexp]

theorem likelihood_dilutionE_empty_witness :
    ((fun q : ℚ => q + 1) 0 = 1)
      ∧ likelihood_dilutionE (fun q => q + 1) errorModel 5 [] [] = Except.ok 1 :=
  ⟨by norm_num,
   likelihood_dilutionE_empty (fun q => q + 1) errorModel 5 (by norm_num)⟩
